import Mathlib

/-!
Verification of the CrewAI span-attribute normalization code in
`traces-observer-service/opensearch/crewai_process.go`.

The Go value space `map[string]interface\x7b\x7d` is modelled as an optional
association list (`none` models a nil Go map); a dynamically-typed attribute
value is modelled by the closed union `AttrValue`.  Numeric attribute values
(Go `float64`) are modelled as integers: every numeric attribute consumed by
this code (`crewai.agent.max_iter`) carries an integral telemetry value and no
claim under verification depends on non-integral arithmetic.  Go strings are
Lean `String`s; character-level operations (`strings.TrimSpace`,
`strings.Fields`, `strings.SplitN`, `fmt.Sscanf` with `%d`) are modelled on
the underlying character lists.
-/

namespace AgentTraceNorm

/-- A dynamically-typed span attribute value (Go `interface` value), restricted
to the shapes the extraction code inspects: strings, numbers, booleans. -/
inductive AttrValue where
  | str (s : String)
  | num (n : Int)
  | bool (b : Bool)
deriving DecidableEq

/-- An attribute map entry list; a Go map has pairwise-distinct keys, and key
ordering models the (arbitrary) iteration order of the Go map. -/
abbrev AttrList := List (String × AttrValue)

/-- A Go `map[string]interface` value: `none` models a nil map. -/
abbrev GoMap := Option AttrList

/-- Indexing `attrs[k]` with its `ok` flag: reading from a nil Go map yields
`ok = false`, i.e. `none`. -/
def mapIndex (attrs : GoMap) (k : String) : Option AttrValue :=
  match attrs with
  | none => none
  | some l => l.lookup k

/-- The combined index-and-type-assert `attrs[k].(string)` of the Go code:
`some s` exactly when the key is present and holds a string. -/
def lookupStr (attrs : GoMap) (k : String) : Option String :=
  match mapIndex attrs k with
  | some (AttrValue.str s) => some s
  | _ => none

/-- The combined index-and-type-assert `attrs[k].(float64)` of the Go code
(numbers modelled as integers, see the module docstring). -/
def lookupNum (attrs : GoMap) (k : String) : Option Int :=
  match mapIndex attrs k with
  | some (AttrValue.num n) => some n
  | _ => none

/-- The key set of a Go map, in iteration order (`for key := range attrs`). -/
def goKeys (attrs : GoMap) : List String :=
  match attrs with
  | none => []
  | some l => l.map Prod.fst

/-- Go `unicode.IsSpace`: ASCII whitespace, NEL, NBSP and the Unicode
space-separator code points. -/
def isGoSpace (c : Char) : Bool :=
  c == ' ' || c == '\t' || c == '\n' || c.toNat == 0x0B || c.toNat == 0x0C ||
  c == '\r' || c.toNat == 0x85 || c.toNat == 0xA0 || c.toNat == 0x1680 ||
  (0x2000 ≤ c.toNat && c.toNat ≤ 0x200A) || c.toNat == 0x2028 ||
  c.toNat == 0x2029 || c.toNat == 0x202F || c.toNat == 0x205F ||
  c.toNat == 0x3000

/-- Left half of Go `strings.TrimSpace` on the character list. -/
def goTrimLeftChars (l : List Char) : List Char :=
  l.dropWhile isGoSpace

/-- Right half of Go `strings.TrimSpace` on the character list. -/
def goTrimRightChars (l : List Char) : List Char :=
  (l.reverse.dropWhile isGoSpace).reverse

/-- Go `strings.TrimSpace`: drop leading and trailing whitespace. -/
def goTrimSpace (s : String) : String :=
  ⟨goTrimRightChars (goTrimLeftChars s.data)⟩

/-- Go `strings.ToLower` restricted to its ASCII fragment (`Char.toLower` maps
`A`–`Z` to `a`–`z` and fixes everything else), which is the fragment the
detector's comparison against the ASCII constant `"crewai"` exercises. -/
def goToLower (s : String) : String :=
  ⟨s.data.map Char.toLower⟩

/-- Go `strings.Fields`: maximal runs of non-whitespace characters. -/
def goFields (l : List Char) : List (List Char) :=
  (l.splitOnP isGoSpace).filter (fun t => !t.isEmpty)

/-- Go `strings.SplitN(pair, "=", 2)` restricted to the two outcomes the
caller distinguishes: `none` when the separator is absent (one part), and the
key/value split at the first `=` otherwise. -/
def splitEq (pair : List Char) : Option (List Char × List Char) :=
  if '=' ∈ pair then
    some (pair.takeWhile (fun c => c != '='), (pair.dropWhile (fun c => c != '=')).tail)
  else none

/-- The value of a leading run of ASCII decimal digits; `none` when the run is
empty (Go scan error `expected integer`). -/
def scanDigits (cs : List Char) : Option Nat :=
  let ds := cs.takeWhile Char.isDigit
  if ds.isEmpty then none
  else some (ds.foldl (fun n c => 10 * n + (c.toNat - 48)) 0)

/-- Go `fmt.Sscanf(value, "%d", &numValue)`: skip leading whitespace, accept an
optional sign and a nonempty run of decimal digits (trailing characters are
ignored), and fail on 64-bit overflow (`strconv.ParseInt` bit size 64). -/
def scanDecimal (value : List Char) : Option Int :=
  match value.dropWhile isGoSpace with
  | '-' :: rest =>
    match scanDigits rest with
    | some n => if n ≤ 2 ^ 63 then some (-(n : Int)) else none
    | none => none
  | '+' :: rest =>
    match scanDigits rest with
    | some n => if n < 2 ^ 63 then some (n : Int) else none
    | none => none
  | cs =>
    match scanDigits cs with
    | some n => if n < 2 ^ 63 then some (n : Int) else none
    | none => none

/-- Token accounting for one span (declared outside `src/` but with all four
fields written by `parseCrewAITokenUsage` in the source; Go `int` is modelled
as `Int`). -/
structure LLMTokenUsage where
  TotalTokens : Int := 0
  InputTokens : Int := 0
  OutputTokens : Int := 0
  CacheReadInputTokens : Int := 0
deriving DecidableEq

/-- One iteration of the `for _, pair := range pairs` loop body of
`parseCrewAITokenUsage`: split the token at the first `=`, scan the value as a
decimal integer, and store it under a recognized key; any failure leaves the
accumulator unchanged (`continue`). -/
def applyPair (usage : LLMTokenUsage) (pair : List Char) : LLMTokenUsage :=
  match splitEq pair with
  | none => usage
  | some (key, value) =>
    match scanDecimal value with
    | none => usage
    | some numValue =>
      if key = "total_tokens".data then { usage with TotalTokens := numValue }
      else if key = "prompt_tokens".data then { usage with InputTokens := numValue }
      else if key = "completion_tokens".data then { usage with OutputTokens := numValue }
      else if key = "cached_prompt_tokens".data then { usage with CacheReadInputTokens := numValue }
      else usage

/-- The trailing validity check of `parseCrewAITokenUsage`: return the parsed
record only when one of total/input/output is positive, else Go nil. -/
def checkUsage (usage : LLMTokenUsage) : Option LLMTokenUsage :=
  if usage.TotalTokens > 0 ∨ usage.InputTokens > 0 ∨ usage.OutputTokens > 0 then
    some usage
  else none

/-- `parseCrewAITokenUsage` from `crewai_process.go`: parse a
whitespace-separated `key=value` usage string, returning `none` (Go nil) for
the empty string and whenever none of total/input/output ended up positive. -/
def parseCrewAITokenUsage (tokenUsageStr : String) : Option LLMTokenUsage :=
  if tokenUsageStr = "" then none
  else checkUsage ((goFields tokenUsageStr.data).foldl applyPair {})

example : parseCrewAITokenUsage "" = none := by decide
example : parseCrewAITokenUsage "foo=bar" = none := by decide
example : parseCrewAITokenUsage "total_tokens=3" =
    some { TotalTokens := 3 } := by decide

/-- One callable capability of an agent (declared outside `src/`; field shape
from spec §3: name, optional description, optional raw serialized
parameters). -/
structure ToolDefinition where
  Name : String
  Description : Option String := none
  Parameters : Option String := none
deriving DecidableEq

/-- A parsed JSON value, used to model the tool-list decoder. -/
inductive JsonVal where
  | null
  | jbool (b : Bool)
  | jnum (raw : String)
  | jstr (s : String)
  | jarr (elems : List JsonVal)
  | jobj (fields : List (String × JsonVal))

/-- JSON insignificant whitespace. -/
def skipJsonWs (cs : List Char) : List Char :=
  cs.dropWhile (fun c => c == ' ' || c == '\t' || c == '\n' || c == '\r')

/-- Hexadecimal digit value for `\u` escapes. -/
def hexDigitVal (c : Char) : Option Nat :=
  if c.isDigit then some (c.toNat - 48)
  else if 'a' ≤ c ∧ c ≤ 'f' then some (c.toNat - 87)
  else if 'A' ≤ c ∧ c ≤ 'F' then some (c.toNat - 55)
  else none

/-- Body of a JSON string (after the opening quote), with escape handling. -/
def parseJsonStringBody (fuel : Nat) (cs : List Char) (acc : List Char) :
    Option (String × List Char) :=
  match fuel, cs with
  | 0, _ => none
  | _, [] => none
  | fuel + 1, c :: rest =>
    if c == '"' then some (⟨acc.reverse⟩, rest)
    else if c == '\\' then
      match rest with
      | [] => none
      | e :: rest2 =>
        if e == '"' then parseJsonStringBody fuel rest2 ('"' :: acc)
        else if e == '\\' then parseJsonStringBody fuel rest2 ('\\' :: acc)
        else if e == '/' then parseJsonStringBody fuel rest2 ('/' :: acc)
        else if e == 'b' then parseJsonStringBody fuel rest2 ('\x08' :: acc)
        else if e == 'f' then parseJsonStringBody fuel rest2 ('\x0C' :: acc)
        else if e == 'n' then parseJsonStringBody fuel rest2 ('\n' :: acc)
        else if e == 'r' then parseJsonStringBody fuel rest2 ('\r' :: acc)
        else if e == 't' then parseJsonStringBody fuel rest2 ('\t' :: acc)
        else if e == 'u' then
          match rest2 with
          | h1 :: h2 :: h3 :: h4 :: rest3 =>
            match hexDigitVal h1, hexDigitVal h2, hexDigitVal h3, hexDigitVal h4 with
            | some a, some b, some c3, some d =>
              parseJsonStringBody fuel rest3
                (Char.ofNat (((a * 16 + b) * 16 + c3) * 16 + d) :: acc)
            | _, _, _, _ => none
          | _ => none
        else none
    else parseJsonStringBody fuel rest (c :: acc)

/-- A character that may occur in a JSON number literal. -/
def isJsonNumChar (c : Char) : Bool :=
  c.isDigit || c == '-' || c == '+' || c == '.' || c == 'e' || c == 'E'

mutual

/-- Recursive-descent JSON value reader (fuel-bounded). -/
def parseJsonValue (fuel : Nat) (cs : List Char) : Option (JsonVal × List Char) :=
  match fuel with
  | 0 => none
  | fuel + 1 =>
    match skipJsonWs cs with
    | [] => none
    | c :: rest =>
      if c == '"' then
        match parseJsonStringBody (rest.length + 1) rest [] with
        | some (s, rem) => some (JsonVal.jstr s, rem)
        | none => none
      else if c == '[' then
        match parseJsonArrayRest fuel rest with
        | some (vs, rem) => some (JsonVal.jarr vs, rem)
        | none => none
      else if c == '\x7b' then
        match parseJsonObjectRest fuel rest with
        | some (fs, rem) => some (JsonVal.jobj fs, rem)
        | none => none
      else if "null".data.isPrefixOf (c :: rest) then
        some (JsonVal.null, (c :: rest).drop 4)
      else if "true".data.isPrefixOf (c :: rest) then
        some (JsonVal.jbool true, (c :: rest).drop 4)
      else if "false".data.isPrefixOf (c :: rest) then
        some (JsonVal.jbool false, (c :: rest).drop 5)
      else if c.isDigit || c == '-' then
        some (JsonVal.jnum ⟨(c :: rest).takeWhile isJsonNumChar⟩,
              (c :: rest).dropWhile isJsonNumChar)
      else none

/-- Elements of a JSON array, after the opening bracket. -/
def parseJsonArrayRest (fuel : Nat) (cs : List Char) : Option (List JsonVal × List Char) :=
  match fuel with
  | 0 => none
  | fuel + 1 =>
    match skipJsonWs cs with
    | ']' :: rest => some ([], rest)
    | cs2 =>
      match parseJsonValue fuel cs2 with
      | none => none
      | some (v, rem) =>
        match skipJsonWs rem with
        | ',' :: rem2 =>
          match parseJsonArrayRest fuel rem2 with
          | some (vs, rem3) => some (v :: vs, rem3)
          | none => none
        | ']' :: rem2 => some ([v], rem2)
        | _ => none

/-- Members of a JSON object, after the opening brace. -/
def parseJsonObjectRest (fuel : Nat) (cs : List Char) :
    Option (List (String × JsonVal) × List Char) :=
  match fuel with
  | 0 => none
  | fuel + 1 =>
    match skipJsonWs cs with
    | '\x7d' :: rest => some ([], rest)
    | '"' :: rest =>
      match parseJsonStringBody (rest.length + 1) rest [] with
      | none => none
      | some (k, rem) =>
        match skipJsonWs rem with
        | ':' :: rem2 =>
          match parseJsonValue fuel rem2 with
          | none => none
          | some (v, rem3) =>
            match skipJsonWs rem3 with
            | ',' :: rem4 =>
              match parseJsonObjectRest fuel rem4 with
              | some (fs, rem5) => some ((k, v) :: fs, rem5)
              | none => none
            | '\x7d' :: rem4 => some ([(k, v)], rem4)
            | _ => none
        | _ => none
    | _ => none

end

/-- Parse a complete JSON document, rejecting trailing garbage. -/
def parseJsonText (s : String) : Option JsonVal :=
  match parseJsonValue (s.data.length + 1) s.data with
  | some (v, rem) => if (skipJsonWs rem).isEmpty then some v else none
  | none => none

/-- Escapes for re-serializing a JSON string. -/
def escapeJsonChar (c : Char) : List Char :=
  if c == '"' then ['\\', '"']
  else if c == '\\' then ['\\', '\\']
  else if c == '\n' then ['\\', 'n']
  else if c == '\t' then ['\\', 't']
  else if c == '\r' then ['\\', 'r']
  else [c]

mutual

/-- Serialize a JSON value (used to keep tool `parameters` in raw serialized
form, as spec §4.4 requires). -/
def renderJson : JsonVal → String
  | JsonVal.null => "null"
  | JsonVal.jbool true => "true"
  | JsonVal.jbool false => "false"
  | JsonVal.jnum raw => raw
  | JsonVal.jstr s => ⟨'"' :: s.data.foldr (fun c acc => escapeJsonChar c ++ acc) ['"']⟩
  | JsonVal.jarr elems => "[" ++ renderJsonList elems ++ "]"
  | JsonVal.jobj fields => "\x7b" ++ renderJsonFields fields ++ "\x7d"

/-- Serialize array elements. -/
def renderJsonList : List JsonVal → String
  | [] => ""
  | [v] => renderJson v
  | v :: vs => renderJson v ++ "," ++ renderJsonList vs

/-- Serialize object members. -/
def renderJsonFields : List (String × JsonVal) → String
  | [] => ""
  | [(k, v)] => renderJson (JsonVal.jstr k) ++ ":" ++ renderJson v
  | (k, v) :: fs => renderJson (JsonVal.jstr k) ++ ":" ++ renderJson v ++ "," ++ renderJsonFields fs

end

/-- First member of a JSON object with the given key. -/
def jsonField (fields : List (String × JsonVal)) (k : String) : Option JsonVal :=
  fields.lookup k

/-- One tool-list element: a bare string becomes a name-only definition, an
object contributes name, optional description and raw serialized parameters;
anything else is skipped. -/
def toolOfJson : JsonVal → Option ToolDefinition
  | JsonVal.jstr s => some { Name := s }
  | JsonVal.jobj fields =>
    match jsonField fields "name" with
    | some (JsonVal.jstr n) =>
      some { Name := n,
             Description :=
               match jsonField fields "description" with
               | some (JsonVal.jstr d) => some d
               | _ => none,
             Parameters := (jsonField fields "parameters").map renderJson }
    | _ => none
  | _ => none

/-- Modelled from the spec: `parseToolsJSON` is defined in `process.go`, which
is not part of `src/`.  Spec §4.4: accept a JSON array of plain strings (each
becoming a `ToolDefinition` with only the name set) or of objects with `name`,
optional `description`, optional `parameters` kept in raw serialized form;
malformed JSON yields the empty sequence, never an error, and unparsable
elements are skipped element-by-element. -/
def parseToolsJSON (toolsJSON : String) : List ToolDefinition :=
  match parseJsonText toolsJSON with
  | some (JsonVal.jarr elems) => elems.filterMap toolOfJson
  | _ => []

example : parseToolsJSON "[\"search\",\"calculator\"]" =
    [{ Name := "search" }, { Name := "calculator" }] := by decide
example : parseToolsJSON "not json" = [] := by decide

/-- `IsCrewAISpan` from `crewai_process.go`: a nil map is not a CrewAI span;
otherwise the span is CrewAI when `gen_ai.system` is a string that lowercases
to `"crewai"`, or some attribute key carries the `crewai.` prefix. -/
def IsCrewAISpan (attrs : GoMap) : Bool :=
  match attrs with
  | none => false
  | some l =>
    if (match l.lookup "gen_ai.system" with
        | some (AttrValue.str val) => goToLower val == "crewai"
        | _ => false) then
      true
    else
      l.any (fun kv => "crewai.".data.isPrefixOf kv.1.data)

/-- `ExtractCrewAISpanInputOutput` from `crewai_process.go`: type-checked
string lookups of `crewai.crew.tasks_output` (input) and `crewai.crew.result`
(output); a nil map yields both absent. -/
def ExtractCrewAISpanInputOutput (attrs : GoMap) : Option String × Option String :=
  match attrs with
  | none => (none, none)
  | some l =>
    let input :=
      match l.lookup "crewai.crew.tasks_output" with
      | some (AttrValue.str tasksStr) => some tasksStr
      | _ => none
    let output :=
      match l.lookup "crewai.crew.result" with
      | some (AttrValue.str resultStr) => some resultStr
      | _ => none
    (input, output)

/-- `extractCrewAIAgentTools` from `crewai_process.go`: absent, non-string or
empty `crewai.agent.tools` yields the empty tool list; otherwise the JSON
decoder runs. -/
def extractCrewAIAgentTools (attrs : GoMap) : List ToolDefinition :=
  match lookupStr attrs "crewai.agent.tools" with
  | none => []
  | some toolsJSON => if toolsJSON = "" then [] else parseToolsJSON toolsJSON

/-- The composition step of `extractCrewAISystemPrompt`, as a function of the
three constituent attribute values (spec §4.5 `composePrompt`): each field is
trimmed, blank fields are omitted, the blocks are emitted in role/goal/
backstory order (the backstory block without a trailing newline in the
source), and the result is trimmed as a whole. -/
def composePrompt (role goal backstory : String) : String :=
  let r := goTrimSpace role
  let g := goTrimSpace goal
  let b := goTrimSpace backstory
  if r = "" ∧ g = "" ∧ b = "" then ""
  else
    goTrimSpace
      ((if r ≠ "" then "role: >\n  " ++ r ++ "\n" else "")
        ++ (if g ≠ "" then "goal: >\n  " ++ g ++ "\n" else "")
        ++ (if b ≠ "" then "backstory: >\n  " ++ b else ""))

/-- `extractCrewAISystemPrompt` from `crewai_process.go`: look up the three
`crewai.agent.*` attributes (absent or non-string leaves the Go variable at
`""`) and compose the prompt. -/
def extractCrewAISystemPrompt (attrs : GoMap) : String :=
  composePrompt
    ((lookupStr attrs "crewai.agent.role").getD "")
    ((lookupStr attrs "crewai.agent.goal").getD "")
    ((lookupStr attrs "crewai.agent.backstory").getD "")

/-- The prompt composer as worded by spec §4.5: every present (non-blank,
after trimming) field is rendered as the uniform block
`"<fieldName>: >\n  <value>\n"` in role/goal/backstory order, all-blank input
gives the empty string, and trailing whitespace of the whole composed string
is trimmed. -/
def composePromptSpec (role goal backstory : String) : String :=
  let r := goTrimSpace role
  let g := goTrimSpace goal
  let b := goTrimSpace backstory
  if r = "" ∧ g = "" ∧ b = "" then ""
  else
    ⟨goTrimRightChars
      ((if r ≠ "" then "role: >\n  " ++ r ++ "\n" else "")
        ++ (if g ≠ "" then "goal: >\n  " ++ g ++ "\n" else "")
        ++ (if b ≠ "" then "backstory: >\n  " ++ b ++ "\n" else "")).data⟩

example : composePrompt "Analyst" "" "" = "role: >\n  Analyst" := by decide
example : composePrompt "" "" "" = "" := by decide
example : composePrompt "A" "G" "B" = composePromptSpec "A" "G" "B" := by decide

/-- The framework-specific payload of a normalized span (declared outside
`src/`; exactly the fields `PopulateCrewAIAgentAttributes` writes). -/
structure AgentData where
  Framework : String := ""
  Name : String := ""
  Tools : List ToolDefinition := []
  SystemPrompt : String := ""
  MaxIter : Int := 0
  TokenUsage : Option LLMTokenUsage := none
deriving DecidableEq

/-- The canonical record for one span (declared outside `src/`; `Input`,
`Output` and `Data` are the fields `PopulateCrewAIAgentAttributes` writes,
each absent until populated). -/
structure AmpAttributes where
  Input : Option String := none
  Output : Option String := none
  Data : Option AgentData := none
deriving DecidableEq

/-- `PopulateCrewAIAgentAttributes` from `crewai_process.go`: build the
`AgentData` payload (framework constant `"crewai"`; name from
`crewai.agent.role` trimmed, else `crewai.crew.name` untrimmed; tools; system
prompt; max iterations; token usage) and store it with the extracted
input/output on the record. -/
def PopulateCrewAIAgentAttributes (ampAttrs : AmpAttributes) (attrs : GoMap) :
    AmpAttributes :=
  let agentData : AgentData := { Framework := "crewai" }
  let io := ExtractCrewAISpanInputOutput attrs
  let agentData :=
    match lookupStr attrs "crewai.agent.role" with
    | some name => { agentData with Name := goTrimSpace name }
    | none =>
      match lookupStr attrs "crewai.crew.name" with
      | some name => { agentData with Name := name }
      | none => agentData
  let agentData := { agentData with Tools := extractCrewAIAgentTools attrs }
  let agentData := { agentData with SystemPrompt := extractCrewAISystemPrompt attrs }
  let agentData :=
    match lookupNum attrs "crewai.agent.max_iter" with
    | some maxIter => { agentData with MaxIter := maxIter }
    | none => agentData
  let agentData :=
    match lookupStr attrs "crewai.crew.token_usage" with
    | some tokenUsageStr => { agentData with TokenUsage := parseCrewAITokenUsage tokenUsageStr }
    | none => agentData
  { ampAttrs with Input := io.1, Output := io.2, Data := some agentData }

/-- Field-level companion of the populator's name-resolution step, used to
state that the `Name` field depends on the attributes alone. -/
def resolveCrewAIAgentName (attrs : GoMap) : String :=
  match lookupStr attrs "crewai.agent.role" with
  | some name => goTrimSpace name
  | none =>
    match lookupStr attrs "crewai.crew.name" with
    | some name => name
    | none => ""

/-- Field-level companion of the populator's iteration-bound step. -/
def extractCrewAIMaxIter (attrs : GoMap) : Int :=
  match lookupNum attrs "crewai.agent.max_iter" with
  | some maxIter => maxIter
  | none => 0

/-- Field-level companion of the populator's token-usage step. -/
def extractCrewAITokenUsage (attrs : GoMap) : Option LLMTokenUsage :=
  match lookupStr attrs "crewai.crew.token_usage" with
  | some tokenUsageStr => parseCrewAITokenUsage tokenUsageStr
  | none => none

example :
    IsCrewAISpan (some [("gen_ai.system", AttrValue.str "CrewAI")]) = true := by decide
example :
    IsCrewAISpan (some [("crewai.crew.name", AttrValue.str "x")]) = true := by decide
example : IsCrewAISpan (some [("gen_ai.system", AttrValue.num 3)]) = false := by decide
example : IsCrewAISpan none = false := by decide

/-- C2: for every input string the token-usage parser either returns absent or
returns a record in which at least one of total/input/output tokens is
strictly positive; in particular an all-zero parse is discarded, and the empty
string and `"foo=bar"` both parse to absent. -/
theorem tokenUsage_nonzero_invariant :
    (∀ s u, parseCrewAITokenUsage s = some u →
      u.TotalTokens > 0 ∨ u.InputTokens > 0 ∨ u.OutputTokens > 0) ∧
    parseCrewAITokenUsage "" = none ∧
    parseCrewAITokenUsage "foo=bar" = none := by
  refine ⟨?_, by decide, by decide⟩
  intro s u h
  unfold parseCrewAITokenUsage at h
  split at h
  · simp at h
  · unfold checkUsage at h
    split at h
    · rename_i hcond
      cases h
      exact hcond
    · simp at h

/-- Witness for C2 at the concrete input `"total_tokens=7"`. -/
theorem tokenUsage_nonzero_invariant_witness :
    ({ TotalTokens := 7 } : LLMTokenUsage).TotalTokens > 0 ∨
    ({ TotalTokens := 7 } : LLMTokenUsage).InputTokens > 0 ∨
    ({ TotalTokens := 7 } : LLMTokenUsage).OutputTokens > 0 :=
  tokenUsage_nonzero_invariant.1 "total_tokens=7" { TotalTokens := 7 } (by decide)

/-- C3 counterexample: the token `total_tokens=12abc` has a value part that is
not a base-10 integer, yet it is not skipped — `fmt.Sscanf` with `%d` accepts
the leading digit run and ignores the trailing characters, so the parser
returns a record with `TotalTokens = 12` instead of absent. -/
theorem tokenUsage_trailing_garbage_counterexample :
    parseCrewAITokenUsage "total_tokens=12abc" = some { TotalTokens := 12 } ∧
    parseCrewAITokenUsage "total_tokens=12abc" ≠ none := by decide

/-- C3 (amended): the parser splits the input on whitespace and each token at
the first `=`; a token with no `=`, a token whose value part does not begin
(after `Sscanf`'s leading-space skipping) with an optionally-signed nonempty
run of decimal digits fitting 64 bits — the longest such leading run is the
value taken, trailing characters being ignored — and a token with an
unrecognized key are each skipped without affecting the other tokens; the
documented concrete input parses to total 57062, input 46376, output 10686,
cacheRead 0. -/
theorem tokenUsage_parser_skip_behavior :
    (∀ u tok, splitEq tok = none → applyPair u tok = u) ∧
    (∀ u tok k v, splitEq tok = some (k, v) → scanDecimal v = none →
      applyPair u tok = u) ∧
    (∀ u tok k v, splitEq tok = some (k, v) →
      k ≠ "total_tokens".data → k ≠ "prompt_tokens".data →
      k ≠ "completion_tokens".data → k ≠ "cached_prompt_tokens".data →
      applyPair u tok = u) ∧
    parseCrewAITokenUsage
        "total_tokens=57062 prompt_tokens=46376 cached_prompt_tokens=0 completion_tokens=10686 successful_requests=10" =
      some { TotalTokens := 57062, InputTokens := 46376, OutputTokens := 10686,
             CacheReadInputTokens := 0 } := by
  refine ⟨?_, ?_, ?_, by decide⟩
  · intro u tok h
    simp only [applyPair, h]
  · intro u tok k v h1 h2
    simp only [applyPair, h1, h2]
  · intro u tok k v h1 h2 h3 h4 h5
    simp only [applyPair, h1]
    cases hsd : scanDecimal v with
    | none => simp
    | some numValue => simp [h2, h3, h4, h5]

/-- Witness for C3 (amended) at concrete skipped tokens. -/
theorem tokenUsage_parser_skip_behavior_witness :
    applyPair {} "nopair".data = {} ∧
    applyPair {} "total_tokens=abc".data = {} ∧
    applyPair {} "successful_requests=10".data = {} :=
  ⟨tokenUsage_parser_skip_behavior.1 {} "nopair".data (by decide),
   tokenUsage_parser_skip_behavior.2.1 {} "total_tokens=abc".data
     "total_tokens".data "abc".data (by decide) (by decide),
   tokenUsage_parser_skip_behavior.2.2.1 {} "successful_requests=10".data
     "successful_requests".data "10".data (by decide) (by decide) (by decide)
     (by decide) (by decide)⟩

/-- C6: when the `crewai.agent.tools` attribute is absent, not a string, or
the empty string, tool extraction returns the empty sequence (and, being a
total function, never an error). -/
theorem crewai_tools_empty_on_absent :
    ∀ attrs : GoMap,
      (lookupStr attrs "crewai.agent.tools" = none ∨
       lookupStr attrs "crewai.agent.tools" = some "") →
      extractCrewAIAgentTools attrs = [] := by
  intro attrs h
  unfold extractCrewAIAgentTools
  rcases h with h | h <;> rw [h]
  simp

/-- Witness for C6: nil map, non-string attribute, and empty-string attribute
all yield the empty tool list. -/
theorem crewai_tools_empty_on_absent_witness :
    extractCrewAIAgentTools none = [] ∧
    extractCrewAIAgentTools (some [("crewai.agent.tools", AttrValue.num 3)]) = [] ∧
    extractCrewAIAgentTools (some [("crewai.agent.tools", AttrValue.str "")]) = [] :=
  ⟨crewai_tools_empty_on_absent none (Or.inl (by decide)),
   crewai_tools_empty_on_absent _ (Or.inl (by decide)),
   crewai_tools_empty_on_absent _ (Or.inr (by decide))⟩

/-- C9: the input/output extractor returns a field exactly when the designated
key holds a string value (absence and type mismatch give `none`), and a nil
attribute map yields both fields absent. -/
theorem crewai_io_extraction_characterization :
    (∀ attrs s, (ExtractCrewAISpanInputOutput attrs).1 = some s ↔
      mapIndex attrs "crewai.crew.tasks_output" = some (AttrValue.str s)) ∧
    (∀ attrs s, (ExtractCrewAISpanInputOutput attrs).2 = some s ↔
      mapIndex attrs "crewai.crew.result" = some (AttrValue.str s)) ∧
    ExtractCrewAISpanInputOutput none = (none, none) := by
  refine ⟨?_, ?_, rfl⟩
  · intro attrs s
    cases attrs with
    | none => simp [ExtractCrewAISpanInputOutput, mapIndex]
    | some l =>
      simp only [ExtractCrewAISpanInputOutput, mapIndex]
      cases hl : l.lookup "crewai.crew.tasks_output" with
      | none => simp [hl]
      | some v => cases v <;> simp [hl]
  · intro attrs s
    cases attrs with
    | none => simp [ExtractCrewAISpanInputOutput, mapIndex]
    | some l =>
      simp only [ExtractCrewAISpanInputOutput, mapIndex]
      cases hl : l.lookup "crewai.crew.result" with
      | none => simp [hl]
      | some v => cases v <;> simp [hl]

/-- C8: the agent-attribute populator is a total function (it can neither
return nor raise an error), its five build steps are independent — each field
of the produced `AgentData` equals the field-level extraction computed from
the attributes alone — and the framework field is always the constant
`"crewai"`, never blank. -/
theorem crewai_populate_independence :
    ∀ (ampAttrs : AmpAttributes) (attrs : GoMap),
      (PopulateCrewAIAgentAttributes ampAttrs attrs).Data.map AgentData.Framework =
        some "crewai" ∧
      (PopulateCrewAIAgentAttributes ampAttrs attrs).Data.map AgentData.Name =
        some (resolveCrewAIAgentName attrs) ∧
      (PopulateCrewAIAgentAttributes ampAttrs attrs).Data.map AgentData.Tools =
        some (extractCrewAIAgentTools attrs) ∧
      (PopulateCrewAIAgentAttributes ampAttrs attrs).Data.map AgentData.SystemPrompt =
        some (extractCrewAISystemPrompt attrs) ∧
      (PopulateCrewAIAgentAttributes ampAttrs attrs).Data.map AgentData.MaxIter =
        some (extractCrewAIMaxIter attrs) ∧
      (PopulateCrewAIAgentAttributes ampAttrs attrs).Data.map AgentData.TokenUsage =
        some (extractCrewAITokenUsage attrs) ∧
      (PopulateCrewAIAgentAttributes ampAttrs attrs).Input =
        (ExtractCrewAISpanInputOutput attrs).1 ∧
      (PopulateCrewAIAgentAttributes ampAttrs attrs).Output =
        (ExtractCrewAISpanInputOutput attrs).2 := by
  intro ampAttrs attrs
  unfold PopulateCrewAIAgentAttributes resolveCrewAIAgentName extractCrewAIMaxIter
    extractCrewAITokenUsage
  cases h1 : lookupStr attrs "crewai.agent.role" <;>
    cases h2 : lookupStr attrs "crewai.crew.name" <;>
    cases h3 : lookupNum attrs "crewai.agent.max_iter" <;>
    cases h4 : lookupStr attrs "crewai.crew.token_usage" <;>
    simp [h1, h2, h3, h4]

/-- C5 counterexample: when the primary key `crewai.agent.role` is absent and
the fallback `crewai.crew.name` holds `"  X "`, the populator stores the
fallback value untrimmed, while the claim requires the stored value to be
trimmed of surrounding whitespace. -/
theorem crewai_name_fallback_untrimmed_counterexample :
    (PopulateCrewAIAgentAttributes {}
        (some [("crewai.crew.name", AttrValue.str "  X ")])).Data.map AgentData.Name =
      some "  X " ∧
    goTrimSpace "  X " = "X" ∧ ("  X " : String) ≠ "X" := by decide

/-- C5 (amended): the agent name is resolved by first trying
`crewai.agent.role` and, only when that key is absent or not a string,
falling back to `crewai.crew.name`; the primary value is stored trimmed of
surrounding whitespace, the fallback value is stored as-is (untrimmed), and
the two values are never concatenated. -/
theorem crewai_name_resolution :
    (∀ (attrs : GoMap) (a : AmpAttributes) (r : String),
      lookupStr attrs "crewai.agent.role" = some r →
      (PopulateCrewAIAgentAttributes a attrs).Data.map AgentData.Name =
        some (goTrimSpace r)) ∧
    (∀ (attrs : GoMap) (a : AmpAttributes) (n : String),
      lookupStr attrs "crewai.agent.role" = none →
      lookupStr attrs "crewai.crew.name" = some n →
      (PopulateCrewAIAgentAttributes a attrs).Data.map AgentData.Name = some n) := by
  constructor
  · intro attrs a r h
    unfold PopulateCrewAIAgentAttributes
    cases h3 : lookupNum attrs "crewai.agent.max_iter" <;>
      cases h4 : lookupStr attrs "crewai.crew.token_usage" <;>
      simp [h, h3, h4]
  · intro attrs a n h1 h2
    unfold PopulateCrewAIAgentAttributes
    cases h3 : lookupNum attrs "crewai.agent.max_iter" <;>
      cases h4 : lookupStr attrs "crewai.crew.token_usage" <;>
      simp [h1, h2, h3, h4]

/-- Witness for C5 (amended): primary key trimmed, fallback key untrimmed. -/
theorem crewai_name_resolution_witness :
    (PopulateCrewAIAgentAttributes {}
        (some [("crewai.agent.role", AttrValue.str " A ")])).Data.map AgentData.Name =
      some (goTrimSpace " A ") ∧
    (PopulateCrewAIAgentAttributes {}
        (some [("crewai.crew.name", AttrValue.str " B ")])).Data.map AgentData.Name =
      some " B " :=
  ⟨crewai_name_resolution.1 _ _ _ (by decide),
   crewai_name_resolution.2 _ _ _ (by decide) (by decide)⟩

/-- Association-list lookup is invariant under permutation when the keys are
pairwise distinct (as the keys of a Go map are). -/
theorem lookup_perm {l₁ l₂ : AttrList} (h : l₁.Perm l₂)
    (nd : (l₁.map Prod.fst).Nodup) (k : String) : l₁.lookup k = l₂.lookup k := by
  induction h with
  | nil => rfl
  | cons x h ih =>
    obtain ⟨xk, xv⟩ := x
    simp only [List.map_cons, List.nodup_cons] at nd
    simp only [List.lookup]
    split
    · rfl
    · exact ih nd.2
  | swap x y l =>
    obtain ⟨xk, xv⟩ := x
    obtain ⟨yk, yv⟩ := y
    simp only [List.map_cons, List.nodup_cons, List.mem_cons] at nd
    have hne : yk ≠ xk := fun he => nd.1 (Or.inl he)
    simp only [List.lookup]
    by_cases hky : k == yk
    · have : ¬ (k == xk) = true := by
        intro hkx
        exact hne ((eq_of_beq hky).symm.trans (eq_of_beq hkx))
      simp [hky, this]
    · simp [hky]
  | trans h₁ h₂ ih₁ ih₂ =>
    exact (ih₁ nd).trans (ih₂ (((h₁.map Prod.fst).nodup_iff).mp nd))

/-- `List.any` is invariant under permutation. -/
theorem any_perm {α : Type} {l₁ l₂ : List α} (h : l₁.Perm l₂) (f : α → Bool) :
    l₁.any f = l₂.any f := by
  rw [Bool.eq_iff_iff]
  simp only [List.any_eq_true]
  exact ⟨fun ⟨x, hx, hf⟩ => ⟨x, h.mem_iff.mp hx, hf⟩,
         fun ⟨x, hx, hf⟩ => ⟨x, h.mem_iff.mpr hx, hf⟩⟩

/-- C1: the detector returns the CrewAI verdict iff `gen_ai.system` is a
string that equals `"crewai"` case-insensitively or some key carries the
`crewai.` prefix; otherwise — including on a nil map — it returns false, and
the verdict does not depend on the iteration order of the map's keys. -/
theorem crewai_detector_characterization :
    (∀ attrs : GoMap, IsCrewAISpan attrs = true ↔
      ((∃ v, mapIndex attrs "gen_ai.system" = some (AttrValue.str v) ∧
          goToLower v = "crewai") ∨
       (∃ k ∈ goKeys attrs, "crewai.".data.isPrefixOf k.data))) ∧
    IsCrewAISpan none = false ∧
    (∀ l₁ l₂ : AttrList, l₁.Perm l₂ → (l₁.map Prod.fst).Nodup →
      IsCrewAISpan (some l₁) = IsCrewAISpan (some l₂)) := by
  refine ⟨?_, rfl, ?_⟩
  · intro attrs
    cases attrs with
    | none => simp [IsCrewAISpan, mapIndex, goKeys]
    | some l =>
      simp only [IsCrewAISpan, mapIndex, goKeys]
      cases hl : l.lookup "gen_ai.system" with
      | none =>
        simp only [hl]
        rw [if_neg (by simp)]
        simp [List.any_eq_true, List.mem_map]
      | some v =>
        cases v with
        | str s =>
          simp only [hl]
          by_cases hw : goToLower s = "crewai"
          · rw [if_pos (by simp [hw])]
            simp [hw]
          · rw [if_neg (by simpa using hw)]
            simp [List.any_eq_true, List.mem_map, hw]
        | num n =>
          simp only [hl]
          rw [if_neg (by simp)]
          simp [List.any_eq_true, List.mem_map]
        | bool b =>
          simp only [hl]
          rw [if_neg (by simp)]
          simp [List.any_eq_true, List.mem_map]
  · intro l₁ l₂ h nd
    simp only [IsCrewAISpan]
    rw [lookup_perm h nd "gen_ai.system", any_perm h]

/-- Witness for C1's order-independence part on a concrete two-element map in
both iteration orders. -/
theorem crewai_detector_characterization_witness :
    IsCrewAISpan (some [("a", AttrValue.num 1), ("crewai.task", AttrValue.num 2)]) =
      IsCrewAISpan (some [("crewai.task", AttrValue.num 2), ("a", AttrValue.num 1)]) :=
  crewai_detector_characterization.2.2 _ _ (by decide) (by decide)

/-- All four token-usage fields are non-negative. -/
def UsageNonneg (u : LLMTokenUsage) : Prop :=
  0 ≤ u.TotalTokens ∧ 0 ≤ u.InputTokens ∧ 0 ≤ u.OutputTokens ∧
    0 ≤ u.CacheReadInputTokens

/-- A scanned decimal value is non-negative when the value does not start
(after leading-whitespace skipping) with a minus sign. -/
theorem scanDecimal_nonneg (v : List Char)
    (h : ¬ (v.dropWhile isGoSpace).head? = some '-') :
    ∀ n, scanDecimal v = some n → 0 ≤ n := by
  intro n hs
  unfold scanDecimal at hs
  split at hs
  · rename_i rest heq
    exact absurd (by rw [heq]; rfl) h
  · split at hs
    · split at hs
      · cases hs
        exact Int.ofNat_nonneg _
      · simp at hs
    · simp at hs
  · split at hs
    · split at hs
      · cases hs
        exact Int.ofNat_nonneg _
      · simp at hs
    · simp at hs

/-- One loop iteration preserves non-negativity of all fields when the token's
value part does not start with a minus sign. -/
theorem applyPair_nonneg (u : LLMTokenUsage) (tok : List Char)
    (htok : ∀ k v, splitEq tok = some (k, v) →
      ¬ (v.dropWhile isGoSpace).head? = some '-')
    (hu : UsageNonneg u) : UsageNonneg (applyPair u tok) := by
  cases hse : splitEq tok with
  | none => simpa only [applyPair, hse] using hu
  | some kv =>
    obtain ⟨k, v⟩ := kv
    cases hsd : scanDecimal v with
    | none => simpa only [applyPair, hse, hsd] using hu
    | some numValue =>
      have hn : 0 ≤ numValue := scanDecimal_nonneg v (htok k v hse) numValue hsd
      obtain ⟨h1, h2, h3, h4⟩ := hu
      simp only [applyPair, hse, hsd]
      split
      · exact ⟨hn, h2, h3, h4⟩
      · split
        · exact ⟨h1, hn, h3, h4⟩
        · split
          · exact ⟨h1, h2, hn, h4⟩
          · split
            · exact ⟨h1, h2, h3, hn⟩
            · exact ⟨h1, h2, h3, h4⟩

/-- The parsing loop preserves non-negativity across all tokens. -/
theorem foldl_applyPair_nonneg (toks : List (List Char)) :
    ∀ u : LLMTokenUsage,
      (∀ tok ∈ toks, ∀ k v, splitEq tok = some (k, v) →
        ¬ (v.dropWhile isGoSpace).head? = some '-') →
      UsageNonneg u → UsageNonneg (toks.foldl applyPair u) := by
  induction toks with
  | nil => exact fun u _ hu => hu
  | cons t ts ih =>
    intro u htoks hu
    exact ih _ (fun tok htm => htoks tok (List.mem_cons_of_mem _ htm))
      (applyPair_nonneg u t (htoks t (List.mem_cons_self _ _)) hu)

/-- C7 counterexample: `fmt.Sscanf` with `%d` accepts a leading minus sign, so
`parseUsage("total_tokens=-5 prompt_tokens=1")` returns a record whose
`TotalTokens` field is the negative integer `-5` (the record is returned
because `InputTokens = 1 > 0`), contradicting the claim that every field of
every returned record is non-negative. -/
theorem tokenUsage_negative_field_counterexample :
    parseCrewAITokenUsage "total_tokens=-5 prompt_tokens=1" =
      some { TotalTokens := -5, InputTokens := 1 } ∧
    ({ TotalTokens := -5, InputTokens := 1 } : LLMTokenUsage).TotalTokens < 0 := by
  decide

/-- C7 (amended): every field of a TokenUsage record returned by the parser is
non-negative provided no token's value part begins (after leading-whitespace
skipping) with a minus sign; a minus-signed value can produce a negative
field. -/
theorem tokenUsage_fields_nonneg :
    ∀ s u, parseCrewAITokenUsage s = some u →
      (∀ tok ∈ goFields s.data, ∀ k v, splitEq tok = some (k, v) →
        ¬ (v.dropWhile isGoSpace).head? = some '-') →
      UsageNonneg u := by
  intro s u hp htoks
  unfold parseCrewAITokenUsage at hp
  split at hp
  · simp at hp
  · unfold checkUsage at hp
    split at hp
    · cases hp
      exact foldl_applyPair_nonneg _ _ htoks
        ⟨le_refl 0, le_refl 0, le_refl 0, le_refl 0⟩
    · simp at hp

/-- Witness for C7 (amended) at a concrete unsigned input. -/
theorem tokenUsage_fields_nonneg_witness :
    UsageNonneg { TotalTokens := 3 } :=
  tokenUsage_fields_nonneg "total_tokens=3" { TotalTokens := 3 } (by decide)
    (by
      intro tok htm k v hse
      rw [show goFields "total_tokens=3".data = ["total_tokens=3".data] from by decide,
        List.mem_singleton] at htm
      subst htm
      rw [show splitEq "total_tokens=3".data =
        some ("total_tokens".data, "3".data) from by decide] at hse
      cases hse
      decide)

/-- Two strings with the same character data are equal. -/
theorem stringData_inj {a b : String} (h : a.data = b.data) : a = b := by
  cases a; cases b; cases h; rfl

/-- String append acts as list append on the character data. -/
theorem goData_append (a b : String) : (a ++ b).data = a.data ++ b.data := rfl

/-- Unfolding `goTrimSpace` at the data level. -/
theorem goTrimSpace_data (s : String) :
    (goTrimSpace s).data = goTrimRightChars (goTrimLeftChars s.data) := rfl

/-- The data of an explicitly constructed string. -/
theorem mk_data (l : List Char) : (String.mk l).data = l := rfl

/-- Right-trimming absorbs a trailing newline. -/
theorem trimRight_append_newline (l : List Char) :
    goTrimRightChars (l ++ ['\n']) = goTrimRightChars l := by
  have h : isGoSpace '\n' = true := by decide
  simp [goTrimRightChars, List.reverse_append, List.dropWhile_cons, h]

/-- Right-trimming is a congruence in the tail of an append. -/
theorem trimRight_append_congr (l : List Char) {t₁ t₂ : List Char}
    (h : goTrimRightChars t₁ = goTrimRightChars t₂) :
    goTrimRightChars (l ++ t₁) = goTrimRightChars (l ++ t₂) := by
  unfold goTrimRightChars at h ⊢
  have h2 : t₁.reverse.dropWhile isGoSpace = t₂.reverse.dropWhile isGoSpace := by
    have h3 := congrArg List.reverse h
    simpa using h3
  rw [List.reverse_append, List.reverse_append, List.dropWhile_append,
    List.dropWhile_append, h2]

/-- Right-trimming is a congruence in the tail of a cons. -/
theorem trimRight_cons_congr (c : Char) {t₁ t₂ : List Char}
    (h : goTrimRightChars t₁ = goTrimRightChars t₂) :
    goTrimRightChars (c :: t₁) = goTrimRightChars (c :: t₂) :=
  trimRight_append_congr [c] h

/-- Left-trimming fixes a list headed by a non-space character. -/
theorem trimLeft_cons (c : Char) (l : List Char) (hc : isGoSpace c = false) :
    goTrimLeftChars (c :: l) = c :: l := by
  simp [goTrimLeftChars, List.dropWhile_cons, hc]

/-- `dropWhile` is idempotent. -/
theorem dropWhile_dropWhile (p : Char → Bool) (l : List Char) :
    (l.dropWhile p).dropWhile p = l.dropWhile p := by
  induction l with
  | nil => rfl
  | cons c t ih =>
    by_cases h : p c
    · simp [List.dropWhile_cons, h, ih]
    · simp [List.dropWhile_cons, h]

/-- The head surviving a `dropWhile` falsifies the predicate. -/
theorem dropWhile_head_false (p : Char → Bool) (l : List Char) :
    ∀ {c t}, l.dropWhile p = c :: t → p c = false := by
  induction l with
  | nil => intro c t h; simp at h
  | cons a l ih =>
    intro c t h
    by_cases ha : p a
    · rw [List.dropWhile_cons_of_pos ha] at h
      exact ih h
    · rw [List.dropWhile_cons_of_neg ha] at h
      cases h
      exact Bool.eq_false_iff.mpr ha

set_option maxHeartbeats 1000000

/-- C4: the system-prompt composer agrees with the spec's rendering — present
fields are emitted in role/goal/backstory order as blocks
`"<fieldName>: >\n  <value>\n"`, blank fields are omitted, the whole string
has its trailing whitespace trimmed, all-blank input gives the empty string —
and the two documented concrete evaluations hold. -/
theorem prompt_composer_matches_spec :
    (∀ role goal backstory,
      composePrompt role goal backstory = composePromptSpec role goal backstory) ∧
    composePrompt "Analyst" "" "" = "role: >\n  Analyst" ∧
    composePrompt "" "" "" = "" := by
  refine ⟨?_, by decide, by decide⟩
  intro role goal backstory
  unfold composePrompt composePromptSpec
  have hemp : ("" : String).data = ([] : List Char) := rfl
  have hnl : ("\n" : String).data = ['\n'] := rfl
  have hR : ("role: >\n  " : String).data = 'r' :: ("ole: >\n  " : String).data := rfl
  have hG : ("goal: >\n  " : String).data = 'g' :: ("oal: >\n  " : String).data := rfl
  have hB : ("backstory: >\n  " : String).data =
    'b' :: ("ackstory: >\n  " : String).data := rfl
  by_cases hr : goTrimSpace role = "" <;> by_cases hg : goTrimSpace goal = "" <;>
    by_cases hb : goTrimSpace backstory = ""
  all_goals simp only [hr, hg, hb, ne_eq, eq_self_iff_true, not_true, not_false_iff,
    true_and, and_true, false_and, and_false, if_true, if_false, ite_true, ite_false]
  all_goals try rfl
  all_goals apply stringData_inj
  all_goals rw [goTrimSpace_data]
  all_goals simp only [mk_data, goData_append, hemp, hnl, hR, hG, hB,
    List.cons_append, List.nil_append, List.append_nil, List.append_assoc]
  all_goals rw [trimLeft_cons _ _ (by decide)]
  all_goals
    first
    | rfl
    | (repeat
        first
        | exact trimRight_append_newline _
        | exact (trimRight_append_newline _).symm
        | apply trimRight_cons_congr
        | apply trimRight_append_congr)

/-- Right-trimming yields a prefix of the original list. -/
theorem trimRight_prefix (l : List Char) : goTrimRightChars l <+: l := by
  unfold goTrimRightChars
  have h := List.dropWhile_suffix (l := l.reverse) (p := isGoSpace)
  have h2 := List.reverse_prefix.mpr h
  rwa [List.reverse_reverse] at h2

/-- Left-trimming fixes a right-trimmed list whose head is non-space. -/
theorem trimLeft_of_trimRight (m : List Char)
    (hm : ∀ c t, m = c :: t → isGoSpace c = false) :
    goTrimLeftChars (goTrimRightChars m) = goTrimRightChars m := by
  cases hr : goTrimRightChars m with
  | nil => rfl
  | cons c t =>
    have hpre := trimRight_prefix m
    rw [hr] at hpre
    obtain ⟨u, hu⟩ := hpre
    exact trimLeft_cons c t (hm c (t ++ u) (by rw [← hu]; rfl))

/-- Go `strings.TrimSpace` is idempotent. -/
theorem goTrimSpace_idem (s : String) : goTrimSpace (goTrimSpace s) = goTrimSpace s := by
  apply stringData_inj
  rw [goTrimSpace_data, goTrimSpace_data]
  have h1 : goTrimLeftChars (goTrimRightChars (goTrimLeftChars s.data)) =
      goTrimRightChars (goTrimLeftChars s.data) :=
    trimLeft_of_trimRight _ (fun c t h => dropWhile_head_false isGoSpace s.data h)
  rw [mk_data, h1]
  unfold goTrimRightChars
  rw [List.reverse_reverse, dropWhile_dropWhile]

/-- C10: the system-prompt composer trims each of role, goal and backstory
individually before testing and rendering them, so a whitespace-only field is
treated exactly like an absent field, and all-whitespace inputs produce the
empty string. -/
theorem prompt_composer_trims_fields :
    (∀ role goal backstory, composePrompt role goal backstory =
      composePrompt (goTrimSpace role) (goTrimSpace goal) (goTrimSpace backstory)) ∧
    (∀ role goal backstory, goTrimSpace role = "" →
      composePrompt role goal backstory = composePrompt "" goal backstory) ∧
    (∀ role goal backstory, goTrimSpace goal = "" →
      composePrompt role goal backstory = composePrompt role "" backstory) ∧
    (∀ role goal backstory, goTrimSpace backstory = "" →
      composePrompt role goal backstory = composePrompt role goal "") ∧
    (∀ role goal backstory, goTrimSpace role = "" → goTrimSpace goal = "" →
      goTrimSpace backstory = "" → composePrompt role goal backstory = "") := by
  refine ⟨?_, ?_, ?_, ?_, ?_⟩
  · intro role goal backstory
    unfold composePrompt
    simp only [goTrimSpace_idem]
  · intro role goal backstory h
    unfold composePrompt
    simp only [h, show goTrimSpace "" = "" from rfl]
  · intro role goal backstory h
    unfold composePrompt
    simp only [h, show goTrimSpace "" = "" from rfl]
  · intro role goal backstory h
    unfold composePrompt
    simp only [h, show goTrimSpace "" = "" from rfl]
  · intro role goal backstory h1 h2 h3
    unfold composePrompt
    simp [h1, h2, h3]

/-- Witness for C10 on concrete whitespace-only fields. -/
theorem prompt_composer_trims_fields_witness :
    composePrompt " \t" "G" "" = composePrompt "" "G" "" ∧
    composePrompt " " " " " " = "" :=
  ⟨prompt_composer_trims_fields.2.1 " \t" "G" "" (by decide),
   prompt_composer_trims_fields.2.2.2.2 " " " " " " (by decide) (by decide) (by decide)⟩

end AgentTraceNorm
